import Mathlib

/-!
Shallow embedding of the svgthing border-detection and upscale-render pipeline
(`src/bounds.rs`, `src/render.rs`, and the duplicate copy in `src/main.rs`).

Pixels are RGBA8 values modelled with `Nat` channels; images are a width, a
height and a pixel lookup function.  The floating-point `f32` scale factors of
the source are modelled with `ℚ` (the claims only concern exactly representable
values, products and ceilings inside the `u32`/`f32` exact range).
`resvg::render`, `erase_bounds` and `Bounds::paint` only affect pixel contents,
never the computed geometry or the control flow of `render_upscaled`, so the
render model returns the geometry the function computes rather than a pixel
buffer.
-/

namespace Svgthing

/-- One RGBA8 pixel, as exposed by `tiny_skia`'s `pixel(x, y)` accessor
(`red()`, `green()`, `blue()`, `alpha()` each in 0..=255). -/
structure Pixel where
  red : Nat
  green : Nat
  blue : Nat
  alpha : Nat
deriving DecidableEq, Repr

/-- Enum `BoundPixel` from `src/bounds.rs` (lines 97-102). -/
inductive BoundPixel
  | Yellow
  | Pink
  | Transparent
deriving DecidableEq, Repr

/-- The classification performed by the first loop of `parse_bound_side`
(`src/bounds.rs` lines 116-148): alpha 0 is transparent, opaque pure yellow
and opaque pure pink are the two reserved colors, and any other pixel aborts
the scan (`return None`), modelled by `none`. -/
def classifyPixel (p : Pixel) : Option BoundPixel :=
  if p.alpha = 0 then some .Transparent
  else if p.alpha = 255 ∧ p.red = 255 ∧ p.green = 255 ∧ p.blue = 0 then some .Yellow
  else if p.alpha = 255 ∧ p.red = 255 ∧ p.green = 0 ∧ p.blue = 255 then some .Pink
  else none

/-- State of the width-measuring loop of `parse_bound_side`
(`src/bounds.rs` lines 157-159): the running yellow and pink widths and the
`prev_pixel` register. -/
structure ScanState where
  yellowWidth : Nat
  pinkWidth : Nat
  prev : Option BoundPixel
deriving DecidableEq, Repr

/-- One iteration of the `for (i, pixel) in result.iter().enumerate()` loop of
`parse_bound_side` (`src/bounds.rs` lines 160-198); `none` models the early
`return None` on an invalid transition. -/
def scanStep (s : ScanState) (i : Nat) (px : BoundPixel) : Option ScanState :=
  match s.prev with
  | none =>
    match px with
    | .Yellow => some { s with prev := some .Yellow, yellowWidth := i }
    | .Pink => some { s with prev := some .Pink, pinkWidth := i }
    | .Transparent => none
  | some .Yellow =>
    match px with
    | .Yellow => some { s with yellowWidth := i }
    | .Pink => some { s with prev := some .Pink, pinkWidth := i }
    | .Transparent => some { s with prev := some .Transparent }
  | some .Pink =>
    match px with
    | .Pink => some { s with pinkWidth := i }
    | .Transparent => some { s with prev := some .Transparent }
    | .Yellow => none
  | some .Transparent =>
    match px with
    | .Transparent => some s
    | .Yellow => none
    | .Pink => none

/-- The enumerated loop of `parse_bound_side`, carrying the running index. -/
def scanGo (i : Nat) (s : ScanState) : List BoundPixel → Option ScanState
  | [] => some s
  | c :: rest =>
    match scanStep s i c with
    | none => none
    | some s2 => scanGo (i + 1) s2 rest

/-- The first loop of `parse_bound_side` (`src/bounds.rs` lines 116-148):
classify every pixel of the strip in order, aborting with `none` as soon as an
invalid (non-reserved, non-transparent) pixel is met. -/
def classifyStrip : List Pixel → Option (List BoundPixel)
  | [] => some []
  | p :: rest =>
    match classifyPixel p with
    | none => none
    | some c =>
      match classifyStrip rest with
      | none => none
      | some cs => some (c :: cs)

/-- Function `parse_bound_side` from `src/bounds.rs` (lines 106-203), over the strip of
pixels the caller's iterators would visit: classify every pixel (aborting on an
invalid one), reject strips shorter than 3, run the width state machine, and
clamp both widths to `strip length - 2`. -/
def parse_bound_side (strip : List Pixel) : Option (Nat × Nat) :=
  match classifyStrip strip with
  | none => none
  | some cs =>
    if cs.length < 3 then none
    else
      match scanGo 0 ⟨0, 0, none⟩ cs with
      | none => none
      | some s =>
        let max_width := cs.length - 2
        some (min s.yellowWidth max_width, min s.pinkWidth max_width)

/-- A pixel buffer: `width()`, `height()` and the `pixel(x, y)` accessor. -/
structure Image where
  width : Nat
  height : Nat
  pixel : Nat → Nat → Pixel

/-- The strip of pixels visited by `parse_bound_side`'s nested
`for x in x_iter { for y in y_iter { ... } }` loops (`src/bounds.rs`
lines 116-117): outer iterator `xs`, inner iterator `ys`. -/
def stripPixels (img : Image) (xs ys : List Nat) : List Pixel :=
  xs.flatMap (fun x => ys.map (fun y => img.pixel x y))

/-- Struct `Bounds` from `src/bounds.rs` (lines 5-11): four `u32` edge widths. -/
structure Bounds where
  l : Nat
  r : Nat
  t : Nat
  b : Nat
deriving DecidableEq, Repr

/-- Predicate `Bounds::is_empty` (`src/bounds.rs` lines 14-16). -/
def Bounds.is_empty (bd : Bounds) : Bool :=
  bd.l = 0 && bd.r = 0 && bd.t = 0 && bd.b = 0

/-- Function `Bounds::scale_value` (`src/bounds.rs` lines 18-28): zero stays zero,
otherwise `(value as f32 * amount).ceil().max(1.0) as u32`, modelled exactly
over `ℚ`. -/
def Bounds.scale_value (value : Nat) (amount : ℚ) : Nat :=
  if value = 0 then 0
  else (max (⌈(value : ℚ) * amount⌉) 1).toNat

/-- Function `Bounds::scale` (`src/bounds.rs` lines 30-37). -/
def Bounds.scale (bd : Bounds) (amount : ℚ) : Bounds :=
  { l := Bounds.scale_value bd.l amount
    r := Bounds.scale_value bd.r amount
    t := Bounds.scale_value bd.t amount
    b := Bounds.scale_value bd.b amount }

/-- Function `detect_reaper_bounds` from `src/bounds.rs` (lines 205-233): scan the four
edge strips and assemble the yellow and pink `Bounds`. -/
def detect_reaper_bounds (img : Image) : Option (Bounds × Bounds) :=
  if img.width = 0 ∨ img.height = 0 then none
  else
    match parse_bound_side (stripPixels img (List.range img.width) [0]) with
    | none => none
    | some left =>
      match parse_bound_side (stripPixels img [0] (List.range img.height)) with
      | none => none
      | some top =>
        match parse_bound_side
            (stripPixels img (List.range img.width).reverse [img.height - 1]) with
        | none => none
        | some right =>
          match parse_bound_side
              (stripPixels img [img.width - 1] (List.range img.height).reverse) with
          | none => none
          | some bottom =>
            some ({ t := top.1, l := left.1, b := bottom.1, r := right.1 },
                  { t := top.2, l := left.2, b := bottom.2, r := right.2 })

/-- Enum `UpscaleMode` from `src/render.rs` (lines 6-15). -/
inductive UpscaleMode
  | Normal
  | VerticalTiles (y : Nat)
  | HorizontalTiles (x : Nat)
  | Grid (x y : Nat)
deriving DecidableEq, Repr

/-- The `(tiles_x, tiles_y)` resolution of the `match mode` in
`render_upscaled` (`src/render.rs` lines 100-105). -/
def UpscaleMode.tiles : UpscaleMode → Nat × Nat
  | .Normal => (1, 1)
  | .VerticalTiles y => (1, y)
  | .HorizontalTiles x => (x, 1)
  | .Grid x y => (x, y)

/-- Function `divide_no_remainder` from `src/render.rs` (lines 23-30). -/
def divide_no_remainder (a b : Nat) : Option Nat :=
  if a % b ≠ 0 then none else some (a / b)

/-- Enum `UpscaleError` from `src/render.rs` (lines 32-42). -/
inductive UpscaleError
  | FractionalInputResolution (w h : ℚ)
  | InvalidScale (s : ℚ)
  | NotDivisibleIntoTiles (w h tx ty : Nat)
  | InvalidOutputResolution (w h : Nat)
deriving DecidableEq, Repr

/-- The sizes computed by a successful `render_upscaled` call: the source's
outer and inner dimensions, the scaled inner and outer dimensions (the latter
are the returned pixmap's dimensions), and whether the border-aware branch
(`if has_bounds`) erased and redrew the reserved-color border. -/
structure RenderGeom where
  outerWidth : Nat
  outerHeight : Nat
  innerWidth : Nat
  innerHeight : Nat
  finalInnerWidth : Nat
  finalInnerHeight : Nat
  finalOuterWidth : Nat
  finalOuterHeight : Nat
  borderRedrawn : Bool
deriving DecidableEq, Repr

/-- Outcome of a `render_upscaled` call: `ok` with the computed geometry
(standing for the returned pixmap, whose dimensions are
`finalOuterWidth × finalOuterHeight`), a typed `Err`, or a Rust panic. -/
inductive RenderOutcome
  | ok (g : RenderGeom)
  | err (e : UpscaleError)
  | panic
deriving DecidableEq, Repr

/-- Expression `((tile_width as f32) * scale).ceil() as u32` from `src/render.rs`
(lines 121-122), modelled exactly over `ℚ`. -/
def final_tile_dim (tile : Nat) (scale : ℚ) : Nat :=
  (⌈(tile : ℚ) * scale⌉).toNat

/-- The `u32` outer dimension extracted from one component of `tree.size()`
(`width as u32`, `src/render.rs` line 92; the `as u32` cast of a whole
non-negative `f32` is `Int.toNat ∘ Int.floor`, and saturates to 0 below 0). -/
def outer_of (q : ℚ) : Nat := (⌊q⌋).toNat

/-- One inner dimension of `render_upscaled` (`src/render.rs` lines 94-98):
the outer dimension minus the 2-pixel frame when a bound was supplied,
otherwise the outer dimension itself. -/
def inner_of (has_bounds : Bool) (outer : Nat) : Nat :=
  if has_bounds then outer - 2 else outer

/-- Body of `render_upscaled` (`src/render.rs` lines 82-184) after the scale
and fractional-resolution validations, with the `u32` source dimensions
already extracted from `tree.size()`.  `has_bounds` is
`pink_bounds.is_some() || yellow_bounds.is_some()` (line 82).  The `u32`
subtraction `outer_width - 2` (line 95) overflows when a bound is supplied for
a source narrower than the 2-pixel frame; that overflow is modelled as
`panic`.  The external `Pixmap::new` fails exactly when a requested dimension
is zero, giving `InvalidOutputResolution`.  `resvg::render`, `erase_bounds`
and the two `Bounds.paint` calls change pixel contents only, so a successful
call is summarised by its `RenderGeom`; the `unwrap()` calls on
`pink_bounds`/`yellow_bounds` (lines 157-158) panic when the corresponding
argument is `none`. -/
def render_core (outer_width outer_height : Nat) (scale : ℚ) (mode : UpscaleMode)
    (pink_bounds yellow_bounds : Option Bounds) : RenderOutcome :=
  let has_bounds := pink_bounds.isSome || yellow_bounds.isSome
  if has_bounds ∧ (outer_width < 2 ∨ outer_height < 2) then .panic
  else
    let inner_width := inner_of has_bounds outer_width
    let inner_height := inner_of has_bounds outer_height
    let tiles_x := mode.tiles.1
    let tiles_y := mode.tiles.2
    match divide_no_remainder inner_width tiles_x with
    | none => .err (.NotDivisibleIntoTiles inner_width inner_height tiles_x tiles_y)
    | some tile_width =>
      match divide_no_remainder inner_height tiles_y with
      | none => .err (.NotDivisibleIntoTiles inner_width inner_height tiles_x tiles_y)
      | some tile_height =>
        let final_inner_width := final_tile_dim tile_width scale * tiles_x
        let final_inner_height := final_tile_dim tile_height scale * tiles_y
        let final_outer_width :=
          if has_bounds then final_inner_width + 2 else final_inner_width
        let final_outer_height :=
          if has_bounds then final_inner_height + 2 else final_inner_height
        if final_outer_width = 0 ∨ final_outer_height = 0 then
          .err (.InvalidOutputResolution final_outer_width final_outer_height)
        else
          if has_bounds then
            match pink_bounds, yellow_bounds with
            | some _, some _ =>
              .ok ⟨outer_width, outer_height, inner_width, inner_height,
                   final_inner_width, final_inner_height,
                   final_outer_width, final_outer_height, true⟩
            | _, _ => .panic
          else
            .ok ⟨outer_width, outer_height, inner_width, inner_height,
                 final_inner_width, final_inner_height,
                 final_outer_width, final_outer_height, false⟩

/-- Function `render_upscaled` from `src/render.rs` (lines 71-185).  The `usvg::Tree`
argument enters only through `tree.size()`, so it is modelled by the two size
components `treeWidth` and `treeHeight` (`width.trunc() != width` is the
integrality test `(⌊w⌋ : ℚ) ≠ w`, and the `as u32` cast of a whole
non-negative `f32` is `Int.toNat ∘ Int.floor`). -/
def render_upscaled (treeWidth treeHeight : ℚ) (scale : ℚ) (mode : UpscaleMode)
    (pink_bounds yellow_bounds : Option Bounds) : RenderOutcome :=
  if scale ≤ 0 then .err (.InvalidScale scale)
  else if ¬((⌊treeWidth⌋ : ℚ) = treeWidth ∧ (⌊treeHeight⌋ : ℚ) = treeHeight) then
    .err (.FractionalInputResolution treeWidth treeHeight)
  else
    render_core (outer_of treeWidth) (outer_of treeHeight) scale mode
      pink_bounds yellow_bounds

/-! Concrete reserved-color pixels and small fixtures used by the theorems. -/

/-- The opaque yellow reserved pixel (alpha 255, RGB 255,255,0). -/
def yellowPx : Pixel := ⟨255, 255, 0, 255⟩

/-- The opaque pink reserved pixel (alpha 255, RGB 255,0,255). -/
def pinkPx : Pixel := ⟨255, 0, 255, 255⟩

/-- A transparent pixel (alpha 0). -/
def transPx : Pixel := ⟨0, 0, 0, 0⟩

/-- The all-zero (empty) `Bounds`. -/
def emptyBounds : Bounds := ⟨0, 0, 0, 0⟩

/-- A 3×3 image whose every pixel is the reserved yellow color; all four edge
scans of `detect_reaper_bounds` succeed on it. -/
def img3 : Image := ⟨3, 3, fun _ _ => yellowPx⟩

/-! Helper lemmas about the edge scan. -/

lemma classifyStrip_length {l : List Pixel} {cs : List BoundPixel}
    (h : classifyStrip l = some cs) : cs.length = l.length := by
  induction l generalizing cs with
  | nil =>
    simp only [classifyStrip, Option.some.injEq] at h
    simp [← h]
  | cons a l ih =>
    unfold classifyStrip at h
    rcases ha : classifyPixel a with _ | c <;> rw [ha] at h
    · cases h
    · rcases hl : classifyStrip l with _ | cs2 <;> rw [hl] at h
      · cases h
      · simp only [Option.some.injEq] at h
        subst h
        simp [ih hl]

lemma parse_bound_side_le {strip : List Pixel} {w1 w2 : Nat}
    (h : parse_bound_side strip = some (w1, w2)) :
    3 ≤ strip.length ∧ w1 ≤ strip.length - 2 ∧ w2 ≤ strip.length - 2 := by
  unfold parse_bound_side at h
  split at h
  · cases h
  · rename_i cs hm
    have hlen := classifyStrip_length hm
    split at h
    · cases h
    · rename_i h3
      split at h
      · cases h
      · simp only [Option.some.injEq, Prod.mk.injEq] at h
        obtain ⟨h1, h2⟩ := h
        subst h1; subst h2
        refine ⟨by omega, ?_, ?_⟩ <;> rw [← hlen] <;> exact Nat.min_le_right _ _

lemma stripPixels_single_y (img : Image) (xs : List Nat) (a : Nat) :
    (stripPixels img xs [a]).length = xs.length := by
  induction xs with
  | nil => rfl
  | cons x xs ih => simp [stripPixels] at ih ⊢; omega

lemma stripPixels_single_x (img : Image) (a : Nat) (ys : List Nat) :
    (stripPixels img [a] ys).length = ys.length := by
  simp [stripPixels]

lemma scanGo_pink_yellow (cl : List BoundPixel) :
    ∀ (i : Nat) (s : ScanState) (cr : List BoundPixel),
      scanGo i s (cl ++ .Pink :: .Yellow :: cr) = none := by
  induction cl with
  | nil =>
    intro i s cr
    rcases s with ⟨yw, pw, prev⟩
    rcases prev with _ | bp
    · simp [scanGo, scanStep]
    · cases bp <;> simp [scanGo, scanStep]
  | cons c cl ih =>
    intro i s cr
    rcases s with ⟨yw, pw, prev⟩
    rcases prev with _ | bp
    · cases c <;> simp [scanGo, scanStep, ih]
    · cases bp <;> cases c <;> simp [scanGo, scanStep, ih]

lemma classifyStrip_pink_yellow (l r : List Pixel) :
    classifyStrip (l ++ pinkPx :: yellowPx :: r) = none ∨
    ∃ cl cr, classifyStrip (l ++ pinkPx :: yellowPx :: r) =
      some (cl ++ .Pink :: .Yellow :: cr) := by
  induction l with
  | nil =>
    rcases hr : classifyStrip r with _ | cr
    · left
      simp [classifyStrip, hr, show classifyPixel pinkPx = some .Pink from rfl,
        show classifyPixel yellowPx = some .Yellow from rfl]
    · right
      refine ⟨[], cr, ?_⟩
      simp [classifyStrip, hr, show classifyPixel pinkPx = some .Pink from rfl,
        show classifyPixel yellowPx = some .Yellow from rfl]
  | cons p l ih =>
    rcases hp : classifyPixel p with _ | c
    · left; simp [classifyStrip, hp]
    · rcases ih with hnone | ⟨cl, cr, hsome⟩
      · left; simp [classifyStrip, hp, hnone]
      · right
        refine ⟨c :: cl, cr, ?_⟩
        simp [classifyStrip, hp, hsome]

/-! Helper lemmas about the upscale-render pipeline. -/

lemma final_tile_dim_pos {t : Nat} {s : ℚ} (ht : 0 < t) (hs : 0 < s) :
    0 < final_tile_dim t s := by
  have h1 : (0 : ℚ) < (t : ℚ) * s := mul_pos (by exact_mod_cast ht) hs
  have h2 : (0 : ℤ) < ⌈(t : ℚ) * s⌉ := Int.ceil_pos.mpr h1
  unfold final_tile_dim
  omega

lemma final_tile_dim_one (t : Nat) : final_tile_dim t 1 = t := by
  unfold final_tile_dim
  rw [mul_one, Int.ceil_natCast]
  simp

lemma final_tile_dim_eval {t n : Nat} {s : ℚ} (h : (t : ℚ) * s = (n : ℚ)) :
    final_tile_dim t s = n := by
  unfold final_tile_dim
  rw [h, Int.ceil_natCast]
  simp

lemma render_upscaled_eq_core {tw th s : ℚ} (mode : UpscaleMode) (pb yb : Option Bounds)
    (hs : 0 < s) (hw : (⌊tw⌋ : ℚ) = tw) (hh : (⌊th⌋ : ℚ) = th) :
    render_upscaled tw th s mode pb yb =
      render_core (outer_of tw) (outer_of th) s mode pb yb := by
  unfold render_upscaled
  rw [if_neg (not_le.mpr hs), if_neg (not_not_intro ⟨hw, hh⟩)]

lemma render_core_ne_invalid_scale (ow oh : Nat) (s : ℚ) (mode : UpscaleMode)
    (pb yb : Option Bounds) (s2 : ℚ) :
    render_core ow oh s mode pb yb ≠ .err (.InvalidScale s2) := by
  intro h
  rcases pb with _ | p <;> rcases yb with _ | q <;>
    simp only [render_core, divide_no_remainder, Option.isSome_none, Option.isSome_some,
      Bool.or_self, Bool.or_true, Bool.true_or, Bool.or_false] at h <;>
    (repeat' split at h) <;> simp_all

lemma render_core_ok (ow oh : Nat) (s : ℚ) (mode : UpscaleMode) (pb yb : Option Bounds)
    (hs : 0 < s) (hpair : pb.isSome = yb.isSome)
    (hdw : inner_of (pb.isSome || yb.isSome) ow % mode.tiles.1 = 0)
    (hdh : inner_of (pb.isSome || yb.isSome) oh % mode.tiles.2 = 0)
    (htx : 0 < mode.tiles.1) (hty : 0 < mode.tiles.2)
    (hiw : 0 < inner_of (pb.isSome || yb.isSome) ow)
    (hih : 0 < inner_of (pb.isSome || yb.isSome) oh) :
    render_core ow oh s mode pb yb =
      .ok ⟨ow, oh,
           inner_of (pb.isSome || yb.isSome) ow,
           inner_of (pb.isSome || yb.isSome) oh,
           final_tile_dim (inner_of (pb.isSome || yb.isSome) ow / mode.tiles.1) s * mode.tiles.1,
           final_tile_dim (inner_of (pb.isSome || yb.isSome) oh / mode.tiles.2) s * mode.tiles.2,
           (if pb.isSome || yb.isSome then
              final_tile_dim (inner_of (pb.isSome || yb.isSome) ow / mode.tiles.1) s *
                mode.tiles.1 + 2
            else
              final_tile_dim (inner_of (pb.isSome || yb.isSome) ow / mode.tiles.1) s *
                mode.tiles.1),
           (if pb.isSome || yb.isSome then
              final_tile_dim (inner_of (pb.isSome || yb.isSome) oh / mode.tiles.2) s *
                mode.tiles.2 + 2
            else
              final_tile_dim (inner_of (pb.isSome || yb.isSome) oh / mode.tiles.2) s *
                mode.tiles.2),
           pb.isSome || yb.isSome⟩ := by
  have hfw : 0 < final_tile_dim (inner_of (pb.isSome || yb.isSome) ow / mode.tiles.1) s :=
    final_tile_dim_pos (Nat.div_pos (Nat.le_of_dvd hiw (Nat.dvd_of_mod_eq_zero hdw)) htx) hs
  have hfh : 0 < final_tile_dim (inner_of (pb.isSome || yb.isSome) oh / mode.tiles.2) s :=
    final_tile_dim_pos (Nat.div_pos (Nat.le_of_dvd hih (Nat.dvd_of_mod_eq_zero hdh)) hty) hs
  have hfw2 : final_tile_dim (inner_of (pb.isSome || yb.isSome) ow / mode.tiles.1) s *
      mode.tiles.1 ≠ 0 := Nat.mul_ne_zero hfw.ne' htx.ne'
  have hfh2 : final_tile_dim (inner_of (pb.isSome || yb.isSome) oh / mode.tiles.2) s *
      mode.tiles.2 ≠ 0 := Nat.mul_ne_zero hfh.ne' hty.ne'
  rcases pb with _ | p <;> rcases yb with _ | q
  · simp only [Option.isSome_none, Bool.or_self] at hdw hdh hiw hih hfw2 hfh2 ⊢
    simp [render_core, divide_no_remainder, hdw, hdh, hfw2, hfh2]
  · simp at hpair
  · simp at hpair
  · simp only [Option.isSome_some, Bool.or_self] at hdw hdh hiw hih hfw2 hfh2 ⊢
    have hguard : ¬(ow < 2 ∨ oh < 2) := by
      simp only [inner_of, if_pos] at hiw hih
      omega
    simp [render_core, divide_no_remainder, hdw, hdh, hfw2, hfh2, hguard]

lemma render_core_not_divisible (ow oh : Nat) (s : ℚ) (mode : UpscaleMode)
    (pb yb : Option Bounds)
    (hguard : (pb.isSome || yb.isSome) = true → 2 ≤ ow ∧ 2 ≤ oh)
    (hnd : ¬(inner_of (pb.isSome || yb.isSome) ow % mode.tiles.1 = 0 ∧
             inner_of (pb.isSome || yb.isSome) oh % mode.tiles.2 = 0)) :
    render_core ow oh s mode pb yb =
      .err (.NotDivisibleIntoTiles (inner_of (pb.isSome || yb.isSome) ow)
        (inner_of (pb.isSome || yb.isSome) oh) mode.tiles.1 mode.tiles.2) := by
  have hg : ¬((pb.isSome = true ∨ yb.isSome = true) ∧ (ow < 2 ∨ oh < 2)) := by
    rintro ⟨h1, h2⟩
    rcases hguard (by rcases h1 with h1 | h1 <;> simp [h1]) with ⟨a, b⟩
    omega
  by_cases hw : inner_of (pb.isSome || yb.isSome) ow % mode.tiles.1 = 0
  · have hh : ¬(inner_of (pb.isSome || yb.isSome) oh % mode.tiles.2 = 0) :=
      fun hcon => hnd ⟨hw, hcon⟩
    simp [render_core, divide_no_remainder, hg, hw, hh]
  · simp [render_core, divide_no_remainder, hg, hw]

lemma detect_reaper_bounds_inv {img : Image} {yb pk : Bounds}
    (h : detect_reaper_bounds img = some (yb, pk)) :
    ∃ left top right bottom : Nat × Nat,
      parse_bound_side (stripPixels img (List.range img.width) [0]) = some left ∧
      parse_bound_side (stripPixels img [0] (List.range img.height)) = some top ∧
      parse_bound_side
        (stripPixels img (List.range img.width).reverse [img.height - 1]) = some right ∧
      parse_bound_side
        (stripPixels img [img.width - 1] (List.range img.height).reverse) = some bottom ∧
      yb = ⟨left.1, right.1, top.1, bottom.1⟩ ∧ pk = ⟨left.2, right.2, top.2, bottom.2⟩ := by
  unfold detect_reaper_bounds at h
  split at h
  · cases h
  · split at h
    · cases h
    · rename_i left hleft
      split at h
      · cases h
      · rename_i top htop
        split at h
        · cases h
        · rename_i right hright
          split at h
          · cases h
          · rename_i bottom hbottom
            simp only [Option.some.injEq, Prod.mk.injEq] at h
            obtain ⟨h1, h2⟩ := h
            exact ⟨left, top, right, bottom, hleft, htop, hright, hbottom,
              h1.symm, h2.symm⟩

/-! Claim theorems. -/

/-- C1 (counterexample): contrary to the claim, supplying both `Bounds` with
BOTH of them empty still triggers border-aware mode: on a 6×6 source at scale
2 with two empty bounds, `render_upscaled` strips the frame (inner 4 = 6 - 2,
not 6), scales the inner region, and redraws the border. -/
theorem C1_counterexample :
    Bounds.is_empty emptyBounds = true ∧
    render_upscaled 6 6 2 .Normal (some emptyBounds) (some emptyBounds) =
      .ok ⟨6, 6, 4, 4, 8, 8, 10, 10, true⟩ := by
  constructor
  · decide
  · have h1 : final_tile_dim 4 2 = 8 := final_tile_dim_eval (by norm_num)
    have ho : outer_of 6 = 6 := by decide
    norm_num [render_upscaled, render_core, ho, inner_of, divide_no_remainder,
      UpscaleMode.tiles, h1]

/-- C1 (amended): `render_upscaled` operates in border-aware mode (inner
dimensions are outer minus 2 per axis and the border is redrawn) if and only
if AT LEAST ONE of the two `Bounds` arguments is supplied (`is_some`);
emptiness of the supplied bounds is never consulted.  In every other case the
inner dimensions equal the outer dimensions and no border is redrawn. -/
theorem C1_border_mode (tw th s : ℚ) (mode : UpscaleMode) (pb yb : Option Bounds)
    (g : RenderGeom) (h : render_upscaled tw th s mode pb yb = .ok g) :
    g.borderRedrawn = (pb.isSome || yb.isSome) ∧
    (g.borderRedrawn = true →
      g.innerWidth = g.outerWidth - 2 ∧ g.innerHeight = g.outerHeight - 2) ∧
    (g.borderRedrawn = false →
      g.innerWidth = g.outerWidth ∧ g.innerHeight = g.outerHeight) := by
  unfold render_upscaled at h
  split at h
  · cases h
  · split at h
    · cases h
    · rcases pb with _ | p <;> rcases yb with _ | q <;>
        simp only [render_core, divide_no_remainder, inner_of, Option.isSome_none,
          Option.isSome_some, Bool.or_self, Bool.or_true, Bool.true_or,
          Bool.or_false] at h <;>
        (repeat' split at h) <;> cases h <;> simp_all

/-- Witness for C1 at a 6×6 source, scale 2, both bounds supplied (empty). -/
theorem C1_border_mode_witness :
    (RenderGeom.mk 6 6 4 4 8 8 10 10 true).borderRedrawn =
        ((some emptyBounds).isSome || (some emptyBounds).isSome) ∧
    ((RenderGeom.mk 6 6 4 4 8 8 10 10 true).borderRedrawn = true →
      (RenderGeom.mk 6 6 4 4 8 8 10 10 true).innerWidth =
          (RenderGeom.mk 6 6 4 4 8 8 10 10 true).outerWidth - 2 ∧
      (RenderGeom.mk 6 6 4 4 8 8 10 10 true).innerHeight =
          (RenderGeom.mk 6 6 4 4 8 8 10 10 true).outerHeight - 2) ∧
    ((RenderGeom.mk 6 6 4 4 8 8 10 10 true).borderRedrawn = false →
      (RenderGeom.mk 6 6 4 4 8 8 10 10 true).innerWidth =
          (RenderGeom.mk 6 6 4 4 8 8 10 10 true).outerWidth ∧
      (RenderGeom.mk 6 6 4 4 8 8 10 10 true).innerHeight =
          (RenderGeom.mk 6 6 4 4 8 8 10 10 true).outerHeight) :=
  C1_border_mode 6 6 2 .Normal (some emptyBounds) (some emptyBounds)
    ⟨6, 6, 4, 4, 8, 8, 10, 10, true⟩ (by
      have h1 : final_tile_dim 4 2 = 8 := final_tile_dim_eval (by norm_num)
      have ho : outer_of 6 = 6 := by decide
      norm_num [render_upscaled, render_core, ho, inner_of, divide_no_remainder,
        UpscaleMode.tiles, h1])

/-- C2 (confirmed): with the validations of the claim's context satisfied
(positive scale, whole source dimensions, positive tile counts, bounds
supplied as a pair or not at all, positive inner dimensions), when the inner
dimensions divide evenly by the tile counts the call succeeds and each final
inner dimension is `ceil((inner / tiles) * scale) * tiles`; when an inner
dimension does not divide evenly, the call fails with
`NotDivisibleIntoTiles`. -/
theorem C2_tile_scaling (tw th s : ℚ) (mode : UpscaleMode) (pb yb : Option Bounds)
    (hs : 0 < s) (hw : (⌊tw⌋ : ℚ) = tw) (hh : (⌊th⌋ : ℚ) = th)
    (htx : 0 < mode.tiles.1) (hty : 0 < mode.tiles.2) :
    (inner_of (pb.isSome || yb.isSome) (outer_of tw) % mode.tiles.1 = 0 ∧
     inner_of (pb.isSome || yb.isSome) (outer_of th) % mode.tiles.2 = 0 ∧
     0 < inner_of (pb.isSome || yb.isSome) (outer_of tw) ∧
     0 < inner_of (pb.isSome || yb.isSome) (outer_of th) ∧
     pb.isSome = yb.isSome →
     ∃ g, render_upscaled tw th s mode pb yb = .ok g ∧
       g.finalInnerWidth =
         final_tile_dim (inner_of (pb.isSome || yb.isSome) (outer_of tw) / mode.tiles.1) s *
           mode.tiles.1 ∧
       g.finalInnerHeight =
         final_tile_dim (inner_of (pb.isSome || yb.isSome) (outer_of th) / mode.tiles.2) s *
           mode.tiles.2) ∧
    (¬(inner_of (pb.isSome || yb.isSome) (outer_of tw) % mode.tiles.1 = 0 ∧
       inner_of (pb.isSome || yb.isSome) (outer_of th) % mode.tiles.2 = 0) ∧
     ((pb.isSome || yb.isSome) = true → 2 ≤ outer_of tw ∧ 2 ≤ outer_of th) →
     render_upscaled tw th s mode pb yb =
       .err (.NotDivisibleIntoTiles (inner_of (pb.isSome || yb.isSome) (outer_of tw))
         (inner_of (pb.isSome || yb.isSome) (outer_of th)) mode.tiles.1 mode.tiles.2)) := by
  constructor
  · rintro ⟨hdw, hdh, hiw, hih, hpair⟩
    rw [render_upscaled_eq_core mode pb yb hs hw hh,
      render_core_ok (outer_of tw) (outer_of th) s mode pb yb hs hpair hdw hdh htx hty hiw hih]
    exact ⟨_, rfl, rfl, rfl⟩
  · rintro ⟨hnd, hguard⟩
    rw [render_upscaled_eq_core mode pb yb hs hw hh]
    exact render_core_not_divisible _ _ _ _ _ _ hguard hnd

/-- Witness for C2: the spec's own example, inner width 9, 3 horizontal
tiles, scale 3/2, giving final inner width `ceil(3 * 3/2) * 3 = 15`. -/
theorem C2_tile_scaling_witness :
    ∃ g, render_upscaled 9 9 (3 / 2) (.HorizontalTiles 3) none none = .ok g ∧
      g.finalInnerWidth =
        final_tile_dim
          (inner_of ((none : Option Bounds).isSome || (none : Option Bounds).isSome)
            (outer_of 9) / (UpscaleMode.HorizontalTiles 3).tiles.1) (3 / 2) *
          (UpscaleMode.HorizontalTiles 3).tiles.1 ∧
      g.finalInnerHeight =
        final_tile_dim
          (inner_of ((none : Option Bounds).isSome || (none : Option Bounds).isSome)
            (outer_of 9) / (UpscaleMode.HorizontalTiles 3).tiles.2) (3 / 2) *
          (UpscaleMode.HorizontalTiles 3).tiles.2 :=
  (C2_tile_scaling 9 9 (3 / 2) (.HorizontalTiles 3) none none (by norm_num) (by norm_num)
    (by norm_num) (by decide) (by decide)).1 (by decide)

/-- C3 (counterexample): contrary to the claim, a scale strictly between 0
and 1 is NOT rejected: at scale 1/2 on a 4×4 source, `render_upscaled`
returns a bitmap, silently downscaled to 2×2. -/
theorem C3_counterexample :
    (0 : ℚ) < 1 / 2 ∧ (1 / 2 : ℚ) < 1 ∧
    render_upscaled 4 4 (1 / 2) .Normal none none =
      .ok ⟨4, 4, 4, 4, 2, 2, 2, 2, false⟩ := by
  refine ⟨by norm_num, by norm_num, ?_⟩
  have h1 : final_tile_dim 4 (1 / 2) = 2 := final_tile_dim_eval (by norm_num)
  have ho : outer_of 4 = 4 := by decide
  norm_num [render_upscaled, render_core, ho, inner_of, divide_no_remainder,
    UpscaleMode.tiles, h1]

/-- C3 (amended): `render_upscaled` rejects a request with `InvalidScale` if
and only if the scale is ≤ 0; a scale in (0, 1) passes the scale validation
and is processed like any other scale (downscaling is performed, not
rejected). -/
theorem C3_scale_rejection_iff (tw th s : ℚ) (mode : UpscaleMode)
    (pb yb : Option Bounds) :
    render_upscaled tw th s mode pb yb = .err (.InvalidScale s) ↔ s ≤ 0 := by
  constructor
  · intro h
    by_contra hs
    unfold render_upscaled at h
    rw [if_neg hs] at h
    split at h
    · simp at h
    · exact render_core_ne_invalid_scale _ _ _ _ _ _ _ h
  · intro hs
    unfold render_upscaled
    rw [if_pos hs]

/-- C5 (counterexample): contrary to the claim, scale 1.0 is NOT a
pass-through for every tile layout: a 5×5 source with `HorizontalTiles 3`
fails with `NotDivisibleIntoTiles` even at scale 1. -/
theorem C5_counterexample :
    render_upscaled 5 5 1 (.HorizontalTiles 3) none none =
      .err (.NotDivisibleIntoTiles 5 5 3 1) := by decide

/-- C5 (amended): with scale 1.0, whenever the tiling divisibility
precondition holds (and the bounds are supplied as a pair or not at all, with
positive inner dimensions), the output's outer dimensions equal the source's
intrinsic dimensions; a tile layout that does not divide the inner dimensions
instead fails with `NotDivisibleIntoTiles`. -/
theorem C5_scale_one (tw th : ℚ) (mode : UpscaleMode) (pb yb : Option Bounds)
    (hw : (⌊tw⌋ : ℚ) = tw) (hh : (⌊th⌋ : ℚ) = th) (hpair : pb.isSome = yb.isSome)
    (htx : 0 < mode.tiles.1) (hty : 0 < mode.tiles.2)
    (hdw : inner_of (pb.isSome || yb.isSome) (outer_of tw) % mode.tiles.1 = 0)
    (hdh : inner_of (pb.isSome || yb.isSome) (outer_of th) % mode.tiles.2 = 0)
    (hiw : 0 < inner_of (pb.isSome || yb.isSome) (outer_of tw))
    (hih : 0 < inner_of (pb.isSome || yb.isSome) (outer_of th)) :
    ∃ g, render_upscaled tw th 1 mode pb yb = .ok g ∧
      g.finalOuterWidth = outer_of tw ∧ g.finalOuterHeight = outer_of th := by
  have key : ∀ (o tx : Nat), inner_of (pb.isSome || yb.isSome) o % tx = 0 →
      0 < inner_of (pb.isSome || yb.isSome) o →
      (if pb.isSome || yb.isSome then
          final_tile_dim (inner_of (pb.isSome || yb.isSome) o / tx) 1 * tx + 2
        else final_tile_dim (inner_of (pb.isSome || yb.isSome) o / tx) 1 * tx) = o := by
    intro o tx hd hi
    rw [final_tile_dim_one, Nat.div_mul_cancel (Nat.dvd_of_mod_eq_zero hd)]
    cases hb : pb.isSome || yb.isSome
    · simp [inner_of]
    · rw [hb] at hi
      simp only [inner_of] at hi ⊢
      simp at hi ⊢
      omega
  rw [render_upscaled_eq_core mode pb yb one_pos hw hh,
    render_core_ok (outer_of tw) (outer_of th) 1 mode pb yb one_pos hpair hdw hdh htx hty
      hiw hih]
  exact ⟨_, rfl, key (outer_of tw) mode.tiles.1 hdw hiw,
    key (outer_of th) mode.tiles.2 hdh hih⟩

/-- Witness for C5 at a 6×6 bordered source (both bounds supplied, empty),
scale 1, Normal mode: the output is 6×6, the intrinsic size. -/
theorem C5_scale_one_witness :
    ∃ g, render_upscaled 6 6 1 .Normal (some emptyBounds) (some emptyBounds) = .ok g ∧
      g.finalOuterWidth = outer_of 6 ∧ g.finalOuterHeight = outer_of 6 :=
  C5_scale_one 6 6 .Normal (some emptyBounds) (some emptyBounds) (by norm_num) (by norm_num)
    rfl (by decide) (by decide) (by decide) (by decide) (by decide) (by decide)

/-- C6 (confirmed): when detection succeeds, the strip along row 0 scanned
left-to-right supplies `left`, the strip along column 0 supplies `top`, the
bottom row scanned in reverse column order supplies `right`, and the
rightmost column scanned in reverse row order supplies `bottom`, for both the
yellow (reserved-A) and pink (reserved-B) `Bounds` of the returned pair. -/
theorem C6_strip_field_mapping (img : Image) (yb pk : Bounds)
    (h : detect_reaper_bounds img = some (yb, pk)) :
    ∃ left top right bottom : Nat × Nat,
      parse_bound_side (stripPixels img (List.range img.width) [0]) = some left ∧
      parse_bound_side (stripPixels img [0] (List.range img.height)) = some top ∧
      parse_bound_side
        (stripPixels img (List.range img.width).reverse [img.height - 1]) = some right ∧
      parse_bound_side
        (stripPixels img [img.width - 1] (List.range img.height).reverse) = some bottom ∧
      yb = ⟨left.1, right.1, top.1, bottom.1⟩ ∧ pk = ⟨left.2, right.2, top.2, bottom.2⟩ :=
  detect_reaper_bounds_inv h

/-- Witness for C6 on the all-yellow 3×3 image. -/
theorem C6_strip_field_mapping_witness :
    ∃ left top right bottom : Nat × Nat,
      parse_bound_side (stripPixels img3 (List.range img3.width) [0]) = some left ∧
      parse_bound_side (stripPixels img3 [0] (List.range img3.height)) = some top ∧
      parse_bound_side
        (stripPixels img3 (List.range img3.width).reverse [img3.height - 1]) = some right ∧
      parse_bound_side
        (stripPixels img3 [img3.width - 1] (List.range img3.height).reverse) = some bottom ∧
      (⟨1, 1, 1, 1⟩ : Bounds) = ⟨left.1, right.1, top.1, bottom.1⟩ ∧
      (⟨0, 0, 0, 0⟩ : Bounds) = ⟨left.2, right.2, top.2, bottom.2⟩ :=
  C6_strip_field_mapping img3 ⟨1, 1, 1, 1⟩ ⟨0, 0, 0, 0⟩ (by decide)

/-- C9 (confirmed): when exactly one of the two `Bounds` arguments is
supplied and all prior validations succeed (positive scale, whole source
dimensions of at least 2, tile divisibility; output allocation then cannot
fail since border-aware outer dimensions are at least 2), `render_upscaled`
panics (unwrap of `None`) instead of returning a bitmap or a typed error. -/
theorem C9_single_bound_panics (tw th s : ℚ) (mode : UpscaleMode) (pb yb : Option Bounds)
    (hs : 0 < s) (hw : (⌊tw⌋ : ℚ) = tw) (hh : (⌊th⌋ : ℚ) = th)
    (hone : pb.isSome ≠ yb.isSome)
    (how : 2 ≤ outer_of tw) (hoh : 2 ≤ outer_of th)
    (hdw : inner_of true (outer_of tw) % mode.tiles.1 = 0)
    (hdh : inner_of true (outer_of th) % mode.tiles.2 = 0) :
    render_upscaled tw th s mode pb yb = .panic := by
  have hg : ¬(outer_of tw < 2 ∨ outer_of th < 2) := by omega
  rw [render_upscaled_eq_core mode pb yb hs hw hh]
  rcases pb with _ | p <;> rcases yb with _ | q
  · simp at hone
  · simp [render_core, divide_no_remainder, hg, hdw, hdh]
  · simp [render_core, divide_no_remainder, hg, hdw, hdh]
  · simp at hone

/-- Witness for C9: 6×6 source, scale 2, only the pink bound supplied. -/
theorem C9_single_bound_panics_witness :
    render_upscaled 6 6 2 .Normal (some emptyBounds) none = .panic :=
  C9_single_bound_panics 6 6 2 .Normal (some emptyBounds) none (by norm_num) (by norm_num)
    (by norm_num) (by decide) (by decide) (by decide) (by decide) (by decide)

/-- C10 (confirmed): every `(Bounds, Bounds)` pair returned by
`detect_reaper_bounds` satisfies the clamp invariant: `l` and `r` of both
bounds are at most `width - 2` and `t` and `b` are at most `height - 2`, and
detection can only succeed on images at least 3 pixels in each dimension. -/
theorem C10_clamp_invariant (img : Image) (yb pk : Bounds)
    (h : detect_reaper_bounds img = some (yb, pk)) :
    3 ≤ img.width ∧ 3 ≤ img.height ∧
    yb.l ≤ img.width - 2 ∧ yb.r ≤ img.width - 2 ∧
    pk.l ≤ img.width - 2 ∧ pk.r ≤ img.width - 2 ∧
    yb.t ≤ img.height - 2 ∧ yb.b ≤ img.height - 2 ∧
    pk.t ≤ img.height - 2 ∧ pk.b ≤ img.height - 2 := by
  obtain ⟨⟨l1, l2⟩, ⟨t1, t2⟩, ⟨r1, r2⟩, ⟨b1, b2⟩, hl, ht, hr, hbb, hyb, hpk⟩ :=
    detect_reaper_bounds_inv h
  have Hl := parse_bound_side_le hl
  have Ht := parse_bound_side_le ht
  have Hr := parse_bound_side_le hr
  have Hb := parse_bound_side_le hbb
  rw [stripPixels_single_y, List.length_range] at Hl
  rw [stripPixels_single_x, List.length_range] at Ht
  rw [stripPixels_single_y, List.length_reverse, List.length_range] at Hr
  rw [stripPixels_single_x, List.length_reverse, List.length_range] at Hb
  subst hyb
  subst hpk
  dsimp only
  omega

/-- Witness for C10 on the all-yellow 3×3 image. -/
theorem C10_clamp_invariant_witness :
    3 ≤ img3.width ∧ 3 ≤ img3.height ∧
    (⟨1, 1, 1, 1⟩ : Bounds).l ≤ img3.width - 2 ∧
    (⟨1, 1, 1, 1⟩ : Bounds).r ≤ img3.width - 2 ∧
    (⟨0, 0, 0, 0⟩ : Bounds).l ≤ img3.width - 2 ∧
    (⟨0, 0, 0, 0⟩ : Bounds).r ≤ img3.width - 2 ∧
    (⟨1, 1, 1, 1⟩ : Bounds).t ≤ img3.height - 2 ∧
    (⟨1, 1, 1, 1⟩ : Bounds).b ≤ img3.height - 2 ∧
    (⟨0, 0, 0, 0⟩ : Bounds).t ≤ img3.height - 2 ∧
    (⟨0, 0, 0, 0⟩ : Bounds).b ≤ img3.height - 2 :=
  C10_clamp_invariant img3 ⟨1, 1, 1, 1⟩ ⟨0, 0, 0, 0⟩ (by decide)

/-- C4 (counterexample): contrary to the claim, a strip in which a reserved-A
(yellow) pixel is immediately followed by a reserved-B (pink) pixel is NOT
rejected: the edge scan of `[Yellow, Pink, Transparent]` succeeds, returning
yellow width 0 and pink width 1. -/
theorem C4_counterexample :
    parse_bound_side [yellowPx, pinkPx, transPx] = some (0, 1) := by decide

/-- C4 (amended): the invalidation of abutting reserved colors is asymmetric.
A reserved-B (pink) pixel immediately followed by a reserved-A (yellow) pixel
always makes the edge scan return no border, wherever the pair occurs; the
reverse ordering (yellow directly followed by pink) is accepted and simply
starts the pink run. -/
theorem C4_pink_then_yellow_invalid :
    (∀ l r : List Pixel, parse_bound_side (l ++ pinkPx :: yellowPx :: r) = none) ∧
    parse_bound_side [yellowPx, pinkPx, transPx] ≠ none := by
  refine ⟨?_, by decide⟩
  intro l r
  unfold parse_bound_side
  rcases classifyStrip_pink_yellow l r with hnone | ⟨cl, cr, hsome⟩
  · rw [hnone]
  · rw [hsome]
    simp only []
    split
    · rfl
    · rw [scanGo_pink_yellow]

/-- C7 (confirmed): on a strip whose pixel classification sequence is exactly
[ReservedA, ReservedA, Transparent, Transparent], the edge scan succeeds and
returns reserved-A (yellow) width 1 and reserved-B (pink) width 0. -/
theorem C7_strip_aatt (p1 p2 p3 p4 : Pixel)
    (h1 : classifyPixel p1 = some .Yellow) (h2 : classifyPixel p2 = some .Yellow)
    (h3 : classifyPixel p3 = some .Transparent)
    (h4 : classifyPixel p4 = some .Transparent) :
    parse_bound_side [p1, p2, p3, p4] = some (1, 0) := by
  unfold parse_bound_side
  simp [classifyStrip, h1, h2, h3, h4, scanGo, scanStep]

/-- Witness for C7 at the concrete reserved pixels. -/
theorem C7_strip_aatt_witness :
    parse_bound_side [yellowPx, yellowPx, transPx, transPx] = some (1, 0) :=
  C7_strip_aatt yellowPx yellowPx transPx transPx rfl rfl rfl rfl

/-- C8 (confirmed): for every field value and every positive scale factor, the
per-field scaling operation `Bounds::scale_value` returns 0 exactly when the
input field is 0; a nonzero field is floored at 1. -/
theorem C8_scale_value_zero_iff (x : Nat) (f : ℚ) (hf : 0 < f) :
    Bounds.scale_value x f = 0 ↔ x = 0 := by
  unfold Bounds.scale_value
  rcases eq_or_ne x 0 with hx | hx
  · simp [hx]
  · rw [if_neg hx]
    simp only [hx, iff_false]
    intro h0
    have h1 : (1 : ℤ) ≤ max (⌈(x : ℚ) * f⌉) 1 := le_max_right _ _
    omega

/-- Witness for C8 at field value 3 and factor 2. -/
theorem C8_scale_value_zero_iff_witness :
    (0 : ℚ) < 2 ∧ (Bounds.scale_value 3 2 = 0 ↔ (3 : Nat) = 0) :=
  ⟨by norm_num, C8_scale_value_zero_iff 3 2 (by norm_num)⟩

end Svgthing
